import Mathlib

/-!
Shallow embedding of the event debouncing and dispatch engine of the gocql
driver (src/events.go), together with proofs of the specified properties.

Go slices become Lean lists, the `frame` interface becomes an inductive type
over the event-frame variants this code inspects, and each handler becomes a
pure function from its inputs (and the session state it reads) to the state
it writes plus the ordered list of collaborator calls and log entries it
makes.  Wall-clock time, used only by the debounce timer, is modelled as a
Nat of nanoseconds (`time.Second = 1000000000`).
-/

set_option autoImplicit false
set_option maxRecDepth 8000

namespace Gocql

/-- Event frames, the decoded protocol messages of events.go: five
schema-change variants (each carrying at least a keyspace; the keyspace-level
variant also carries a change string), plus topology- and status-change
frames (change, host address string, port).  The host address stands for the
string form of the `net.IP` (`f.host.String()`), which is the only way
events.go consumes it. -/
inductive Frame where
  | schemaChangeKeyspace (keyspace change : String)
  | schemaChangeTable (keyspace object : String)
  | schemaChangeFunction (keyspace object : String)
  | schemaChangeAggregate (keyspace object : String)
  | schemaChangeType (keyspace object : String)
  | topologyChangeEventFrame (change : String) (host : String) (port : Nat)
  | statusChangeEventFrame (change : String) (host : String) (port : Nat)
deriving DecidableEq

/-- Levels of the internal logger (logger.go). -/
inductive LogLevel where
  | error
  | warning
  | info
  | debug
deriving DecidableEq

/-- A value attached to a named log field (`NewLogField`). -/
inductive LogValue where
  | str (s : String)
  | nat (n : Nat)
  | frame (f : Frame)
deriving DecidableEq

/-- One leveled log message with its named fields, as emitted through the
internal logger. -/
structure LogEntry where
  level : LogLevel
  msg : String
  fields : List (String × LogValue)
deriving DecidableEq

/-- The two constants of events.go. -/
def eventBufferSize : Nat := 1000

/-- eventDebounceTime = 1 * time.Second, in nanoseconds. -/
def eventDebounceTime : Nat := 1000000000

/-- The mutable state of an `eventDebouncer` that the buffering logic
touches: its diagnostic name and the pending frame sequence.  The timer is
modelled separately (see `FlusherState`), and the mutex disappears in the
sequential embedding. -/
structure eventDebouncer where
  name : String
  events : List Frame
deriving DecidableEq

/-- flush (events.go lines 62-72): on an empty buffer do nothing and invoke
no callback (`none`); otherwise hand the whole pending sequence to the
callback (`some batch`) and replace it with a fresh empty one. -/
def flush (e : eventDebouncer) : eventDebouncer × Option (List Frame) :=
  if e.events = [] then (e, none)
  else ({ e with events := [] }, some e.events)

/-- The warning entry debounce logs when the buffer is full, carrying the
debouncer's name and the dropped frame. -/
def bufferFullWarning (name : String) (f : Frame) : LogEntry :=
  { level := LogLevel.warning
    msg := "%s: buffer full, dropping event frame: %s"
    fields := [("event_name", LogValue.str name), ("frame", LogValue.frame f)] }

/-- debounce (events.go lines 74-87), buffering part: append the frame while
below `eventBufferSize`, otherwise drop it and log one warning.  (The
unconditional `timer.Reset` on entry is modelled by `debounceAt`.) -/
def debounce (e : eventDebouncer) (f : Frame) : eventDebouncer × List LogEntry :=
  if e.events.length < eventBufferSize then
    ({ e with events := e.events ++ [f] }, [])
  else
    (e, [bufferFullWarning e.name f])

/-- A sequence of debounce calls, accumulating the log entries. -/
def debounceRun : eventDebouncer → List Frame → eventDebouncer × List LogEntry
  | e, [] => (e, [])
  | e, f :: fs =>
    let r := debounce e f
    let rest := debounceRun r.1 fs
    (rest.1, r.2 ++ rest.2)

lemma debounceRun_events (fs : List Frame) :
    ∀ e : eventDebouncer,
      (debounceRun e fs).1.events
        = e.events ++ fs.take (eventBufferSize - e.events.length) := by
  induction fs with
  | nil => intro e; simp [debounceRun]
  | cons f fs ih =>
    intro e
    by_cases h : e.events.length < eventBufferSize
    · have hstep : (debounce e f).1 = { e with events := e.events ++ [f] } := by
        simp [debounce, h]
      have := ih (debounce e f).1
      rw [debounceRun] at *
      rw [this, hstep]
      have hk : eventBufferSize - e.events.length
          = (eventBufferSize - (e.events.length + 1)) + 1 := by omega
      simp only [List.length_append, List.length_cons, List.length_nil]
      rw [hk, List.take_succ_cons, List.append_assoc]
      simp
    · have hstep : (debounce e f).1 = e := by
        simp [debounce, h]
      have hz : eventBufferSize - e.events.length = 0 := by omega
      rw [debounceRun, hstep, ih e, hz]
      simp [hz]

lemma debounce_fst_at_capacity (e : eventDebouncer) (f : Frame)
    (h : ¬ e.events.length < eventBufferSize) : (debounce e f).1 = e := by
  simp [debounce, h]

/-- C3.  A debounce call below capacity appends the frame at the end and
logs nothing; a call at capacity (1000 pending frames) leaves the sequence
unchanged and emits exactly the one buffer-full warning carrying the
debouncer's name and the dropped frame; capacity is preserved by one call
and by any sequence of calls. -/
theorem debounce_buffer_capacity (e : eventDebouncer) (f : Frame) :
    (e.events.length ≤ eventBufferSize →
       (debounce e f).1.events.length ≤ eventBufferSize)
    ∧ (e.events.length = eventBufferSize →
       (debounce e f).1 = e ∧ (debounce e f).2 = [bufferFullWarning e.name f])
    ∧ (e.events.length < eventBufferSize →
       (debounce e f).1.events = e.events ++ [f] ∧ (debounce e f).2 = [])
    ∧ (∀ fs : List Frame, e.events.length ≤ eventBufferSize →
       (debounceRun e fs).1.events.length ≤ eventBufferSize) := by
  refine ⟨?_, ?_, ?_, ?_⟩
  · intro hle
    by_cases h : e.events.length < eventBufferSize
    · simp [debounce, h]; omega
    · simp [debounce_fst_at_capacity e f h]; omega
  · intro heq
    have h : ¬ e.events.length < eventBufferSize := by omega
    exact ⟨debounce_fst_at_capacity e f h, by simp [debounce, h]⟩
  · intro h
    exact ⟨by simp [debounce, h], by simp [debounce, h]⟩
  · intro fs hle
    rw [debounceRun_events]
    simp only [List.length_append, List.length_take]
    omega

/-- Witness for C3 at a concrete debouncer holding exactly 1000 frames and
at a concrete debouncer holding one frame. -/
theorem debounce_buffer_capacity_witness :
    (let full : eventDebouncer :=
       ⟨"node events", List.replicate 1000 (Frame.topologyChangeEventFrame "NEW_NODE" "10.0.0.1" 9042)⟩
     let f := Frame.statusChangeEventFrame "UP" "10.0.0.2" 9042
     (debounce full f).1 = full
       ∧ (debounce full f).2 = [bufferFullWarning "node events" f])
    ∧ (let small : eventDebouncer :=
         ⟨"node events", [Frame.statusChangeEventFrame "DOWN" "10.0.0.3" 9042]⟩
       let f := Frame.statusChangeEventFrame "UP" "10.0.0.2" 9042
       (debounce small f).1.events
         = [Frame.statusChangeEventFrame "DOWN" "10.0.0.3" 9042, f]
         ∧ (debounce small f).2 = []) := by
  constructor
  · have h := (debounce_buffer_capacity
      ⟨"node events", List.replicate 1000 (Frame.topologyChangeEventFrame "NEW_NODE" "10.0.0.1" 9042)⟩
      (Frame.statusChangeEventFrame "UP" "10.0.0.2" 9042)).2.1 (by simp [eventBufferSize])
    exact h
  · have h := (debounce_buffer_capacity
      ⟨"node events", [Frame.statusChangeEventFrame "DOWN" "10.0.0.3" 9042]⟩
      (Frame.statusChangeEventFrame "UP" "10.0.0.2" 9042)).2.2.1 (by simp [eventBufferSize])
    exact ⟨h.1, h.2⟩

/-- C4.  Flush on an empty pending sequence invokes no callback and leaves
the state unchanged; flush on a non-empty sequence delivers exactly that
sequence to the callback and leaves a fresh empty sequence behind; the
delivered batch and the remaining sequence together are exactly the old
sequence (nothing lost, nothing duplicated); and a debounce call arriving
after a flush starts a fresh batch. -/
theorem flush_empty_swap (e : eventDebouncer) (f : Frame) :
    (e.events = [] → flush e = (e, none))
    ∧ (flush e).1.events = []
    ∧ (e.events ≠ [] → (flush e).2 = some e.events)
    ∧ ((flush e).2.getD [] ++ (flush e).1.events = e.events)
    ∧ (debounce (flush e).1 f).1.events = [f] := by
  by_cases h : e.events = []
  · refine ⟨fun _ => by simp [flush, h], by simp [flush, h], fun hne => absurd h hne,
      by simp [flush, h], ?_⟩
    simp [flush, h, debounce, eventBufferSize]
  · refine ⟨fun he => absurd he h, by simp [flush, h], fun _ => by simp [flush, h],
      by simp [flush, h], ?_⟩
    simp [flush, h, debounce, eventBufferSize]

/-- Witness for C4 at a concrete non-empty and a concrete empty debouncer. -/
theorem flush_empty_swap_witness :
    (let e : eventDebouncer :=
       ⟨"schema events", [Frame.schemaChangeTable "app" "t"]⟩
     (flush e).2 = some [Frame.schemaChangeTable "app" "t"]
       ∧ (flush e).1.events = [])
    ∧ flush ⟨"schema events", []⟩ = (⟨"schema events", []⟩, none) := by
  constructor
  · have h := flush_empty_swap ⟨"schema events", [Frame.schemaChangeTable "app" "t"]⟩
      (Frame.schemaChangeTable "app" "t")
    exact ⟨h.2.2.1 (by simp), h.2.1⟩
  · exact (flush_empty_swap ⟨"schema events", []⟩
      (Frame.schemaChangeTable "app" "t")).1 rfl

/-- The event-related configuration flags read by handleNodeEvent
(`s.cfg.Events`). -/
structure EventsConfig where
  DisableTopologyEvents : Bool
  DisableNodeStatusEvents : Bool
deriving DecidableEq

/-- The local `nodeEvent` record of handleNodeEvent: the merged pending
status decision for one host. -/
structure nodeEvent where
  change : String
  host : String
  port : Nat
deriving DecidableEq

/-- Lookup in the `sEvents` map, modelled as an insertion-ordered
association list keyed by the host address string. -/
def lookupEvent : List (String × nodeEvent) → String → Option nodeEvent
  | [], _ => none
  | p :: ps, k => if p.1 = k then some p.2 else lookupEvent ps k

/-- One iteration of the scan loop of handleNodeEvent (lines 156-170) as it
affects `sEvents`: a status-change frame is merged by host address — insert
a fresh record when the address is new, then overwrite (only) its `change`
with this frame's change; every other frame leaves `sEvents` alone. -/
def mergeNodeEvent (sEvents : List (String × nodeEvent)) (f : Frame) :
    List (String × nodeEvent) :=
  match f with
  | Frame.statusChangeEventFrame change host port =>
    match lookupEvent sEvents host with
    | none => sEvents ++ [(host, { change := change, host := host, port := port })]
    | some _ =>
      sEvents.map fun p => if p.1 = host then (p.1, { p.2 with change := change }) else p
  | _ => sEvents

/-- The `sEvents` map after the scan loop. -/
def mergeStatusEvents (frames : List Frame) : List (String × nodeEvent) :=
  frames.foldl mergeNodeEvent []

/-- Whether the scan loop set `topologyEventReceived`. -/
def topologyEventReceived (frames : List Frame) : Bool :=
  frames.any fun f =>
    match f with
    | Frame.topologyChangeEventFrame _ _ _ => true
    | _ => false

/-- The calls handleNodeEvent makes, in order: the debounced ring refresh
and the per-host UP/DOWN dispatches. -/
inductive NodeAction where
  | ringRefresh
  | nodeUp (host : String) (port : Nat)
  | nodeDown (host : String) (port : Nat)
deriving DecidableEq

/-- The dispatch switch of handleNodeEvent (lines 182-191) for one merged
record: UP and DOWN dispatch to handleNodeUp / handleNodeDown unless node
status events are disabled; any other change value is silently ignored. -/
def dispatchEvent (cfg : EventsConfig) (e : nodeEvent) : List NodeAction :=
  if e.change = "UP" then
    if cfg.DisableNodeStatusEvents then [] else [NodeAction.nodeUp e.host e.port]
  else if e.change = "DOWN" then
    if cfg.DisableNodeStatusEvents then [] else [NodeAction.nodeDown e.host e.port]
  else []

/-- handleNodeEvent (events.go lines 145-193): scan the batch once, merging
status frames per host and noting whether any topology frame appeared; then
trigger one debounced ring refresh (unless topology events are disabled)
before dispatching the merged per-host status decisions. -/
def handleNodeEvent (cfg : EventsConfig) (frames : List Frame) : List NodeAction :=
  (if topologyEventReceived frames && !cfg.DisableTopologyEvents
   then [NodeAction.ringRefresh] else [])
    ++ (mergeStatusEvents frames).flatMap fun p => dispatchEvent cfg p.2

/-- The (change, port) pairs of the status-change frames for one host
address, in batch order. -/
def statusFor (a : String) (frames : List Frame) : List (String × Nat) :=
  frames.filterMap fun f =>
    match f with
    | Frame.statusChangeEventFrame ch h p => if h = a then some (ch, p) else none
    | _ => none

/-- The change values of the status-change frames for one host address, in
batch order. -/
def statusChangesFor (a : String) (frames : List Frame) : List String :=
  (statusFor a frames).map Prod.fst

/-- The port carried by the first status-change frame for one host
address. -/
def firstStatusPortFor (a : String) (frames : List Frame) : Option Nat :=
  ((statusFor a frames).map Prod.snd).head?

/-- Whether a dispatched call is the UP/DOWN handling of the given host. -/
def isStatusActionFor (a : String) : NodeAction → Bool
  | NodeAction.nodeUp h _ => h = a
  | NodeAction.nodeDown h _ => h = a
  | NodeAction.ringRefresh => false

/-- The UP/DOWN dispatches for one host among the calls of a batch. -/
def statusActionsFor (a : String) (acts : List NodeAction) : List NodeAction :=
  acts.filter (isStatusActionFor a)

/-- The change value an UP/DOWN dispatch acts on. -/
def actionChange : NodeAction → String
  | NodeAction.nodeUp _ _ => "UP"
  | NodeAction.nodeDown _ _ => "DOWN"
  | NodeAction.ringRefresh => ""

/-- The host port an UP/DOWN dispatch is made with. -/
def actionPort : NodeAction → Nat
  | NodeAction.nodeUp _ p => p
  | NodeAction.nodeDown _ p => p
  | NodeAction.ringRefresh => 0

/-- The entries of the `sEvents` association list whose key is the given
host address. -/
def entriesFor (a : String) (l : List (String × nodeEvent)) :
    List (String × nodeEvent) :=
  l.filter fun p => p.1 == a

lemma lookupEvent_eq_none_iff (l : List (String × nodeEvent)) (a : String) :
    lookupEvent l a = none ↔ entriesFor a l = [] := by
  induction l with
  | nil => simp [lookupEvent, entriesFor]
  | cons p ps ih =>
    by_cases h : p.1 = a
    · simp [lookupEvent, entriesFor, h]
    · simpa [lookupEvent, entriesFor, h] using ih

lemma filter_update_eq (a ch : String) (l : List (String × nodeEvent)) :
    (l.map fun p => if p.1 = a then (p.1, { p.2 with change := ch }) else p).filter
        (fun q => q.1 == a)
      = (l.filter fun q => q.1 == a).map fun p => (p.1, { p.2 with change := ch }) := by
  induction l with
  | nil => rfl
  | cons p ps ih =>
    by_cases h : p.1 = a
    · simp only [List.map_cons, if_pos h, List.filter_cons]
      simp [h, ih]
    · simp only [List.map_cons, if_neg h, List.filter_cons]
      simp [h, ih]

lemma filter_update_ne (a h ch : String) (hne : h ≠ a)
    (l : List (String × nodeEvent)) :
    (l.map fun p => if p.1 = h then (p.1, { p.2 with change := ch }) else p).filter
        (fun q => q.1 == a)
      = l.filter fun q => q.1 == a := by
  induction l with
  | nil => rfl
  | cons p ps ih =>
    by_cases hp : p.1 = h
    · have hpa : ¬ p.1 = a := by rw [hp]; exact hne
      simp only [List.map_cons, if_pos hp, List.filter_cons]
      simp [hpa, ih]
    · simp only [List.map_cons, if_neg hp, List.filter_cons]
      by_cases hpa : p.1 = a <;> simp [hpa, ih]

/-- How one merged status frame for host `a` acts on `a`'s entries: create
the record if absent, otherwise overwrite only its change. -/
def mergeChangeStep (a : String) (l : List (String × nodeEvent))
    (cp : String × Nat) : List (String × nodeEvent) :=
  if l = [] then [(a, { change := cp.1, host := a, port := cp.2 })]
  else l.map fun p => (p.1, { p.2 with change := cp.1 })

lemma entriesFor_mergeNodeEvent (a : String) (acc : List (String × nodeEvent))
    (f : Frame) :
    entriesFor a (mergeNodeEvent acc f)
      = match f with
        | Frame.statusChangeEventFrame ch h p =>
          if h = a then mergeChangeStep a (entriesFor a acc) (ch, p)
          else entriesFor a acc
        | _ => entriesFor a acc := by
  cases f with
  | statusChangeEventFrame ch h p =>
    simp only [mergeNodeEvent]
    cases hl : lookupEvent acc h with
    | none =>
      have hnil : entriesFor h acc = [] := (lookupEvent_eq_none_iff acc h).mp hl
      by_cases hha : h = a
      · subst hha
        have hnil' : acc.filter (fun q => q.1 == h) = [] := by
          simpa [entriesFor] using hnil
        simp [entriesFor, mergeChangeStep, List.filter_append, hnil']
      · simp [entriesFor, List.filter_append, hha]
    | some e0 =>
      have hne : entriesFor h acc ≠ [] := by
        intro hnil
        rw [(lookupEvent_eq_none_iff acc h).mpr hnil] at hl
        exact Option.noConfusion hl
      by_cases hha : h = a
      · subst hha
        rw [if_pos rfl, mergeChangeStep, if_neg hne]
        exact filter_update_eq h ch acc
      · rw [if_neg hha]
        exact filter_update_ne a h ch hha acc
  | topologyChangeEventFrame ch h p => rfl
  | schemaChangeKeyspace ks ch => rfl
  | schemaChangeTable ks o => rfl
  | schemaChangeFunction ks o => rfl
  | schemaChangeAggregate ks o => rfl
  | schemaChangeType ks o => rfl

lemma statusFor_cons (a : String) (f : Frame) (fs : List Frame) :
    statusFor a (f :: fs)
      = match f with
        | Frame.statusChangeEventFrame ch h p =>
          if h = a then (ch, p) :: statusFor a fs else statusFor a fs
        | _ => statusFor a fs := by
  cases f with
  | statusChangeEventFrame ch h p =>
    by_cases hha : h = a <;> simp [statusFor, List.filterMap_cons, hha]
  | topologyChangeEventFrame ch h p => simp [statusFor, List.filterMap_cons]
  | schemaChangeKeyspace ks ch => simp [statusFor, List.filterMap_cons]
  | schemaChangeTable ks o => simp [statusFor, List.filterMap_cons]
  | schemaChangeFunction ks o => simp [statusFor, List.filterMap_cons]
  | schemaChangeAggregate ks o => simp [statusFor, List.filterMap_cons]
  | schemaChangeType ks o => simp [statusFor, List.filterMap_cons]

lemma entriesFor_merge_foldl (frames : List Frame) :
    ∀ (acc : List (String × nodeEvent)) (a : String),
      entriesFor a (frames.foldl mergeNodeEvent acc)
        = (statusFor a frames).foldl (mergeChangeStep a) (entriesFor a acc) := by
  induction frames with
  | nil => intro acc a; simp [statusFor]
  | cons f fs ih =>
    intro acc a
    rw [List.foldl_cons, ih (mergeNodeEvent acc f) a, entriesFor_mergeNodeEvent,
      statusFor_cons]
    cases f with
    | statusChangeEventFrame ch h p =>
      by_cases hha : h = a
      · simp [hha]
      · simp only [if_neg hha]
    | topologyChangeEventFrame ch h p => rfl
    | schemaChangeKeyspace ks ch => rfl
    | schemaChangeTable ks o => rfl
    | schemaChangeFunction ks o => rfl
    | schemaChangeAggregate ks o => rfl
    | schemaChangeType ks o => rfl

lemma mergeChangeStep_foldl_singleton (a : String) (cps : List (String × Nat)) :
    ∀ e : nodeEvent,
      cps.foldl (mergeChangeStep a) [(a, e)]
        = [(a, { e with change := (cps.map Prod.fst).getLastD e.change })] := by
  induction cps with
  | nil => intro e; simp
  | cons cp cps ih =>
    intro e
    have hstep : mergeChangeStep a [(a, e)] cp = [(a, { e with change := cp.1 })] := by
      simp [mergeChangeStep]
    rw [List.foldl_cons, hstep, ih { e with change := cp.1 }, List.map_cons,
      List.getLastD_cons]

/-- The merged record for one host after the scan loop: absent when the
batch has no status frame for it; otherwise a single record keyed by the
address, whose change is the last status change in batch order and whose
host and port are those of the first status frame seen for that address. -/
lemma entriesFor_mergeStatusEvents (a : String) (frames : List Frame) :
    entriesFor a (mergeStatusEvents frames)
      = match statusFor a frames with
        | [] => []
        | c :: rest =>
          [(a, { change := (rest.map Prod.fst).getLastD c.1, host := a, port := c.2 })] := by
  have hbase : entriesFor a ([] : List (String × nodeEvent)) = [] := rfl
  rw [mergeStatusEvents, entriesFor_merge_foldl frames [] a, hbase]
  cases hs : statusFor a frames with
  | nil => rfl
  | cons c rest =>
    rw [List.foldl_cons]
    have hstep : mergeChangeStep a [] c = [(a, { change := c.1, host := a, port := c.2 })] := by
      simp [mergeChangeStep]
    rw [hstep, mergeChangeStep_foldl_singleton a rest]

lemma mergeNodeEvent_host_key (acc : List (String × nodeEvent)) (f : Frame)
    (h : ∀ p ∈ acc, p.2.host = p.1) :
    ∀ p ∈ mergeNodeEvent acc f, p.2.host = p.1 := by
  cases f with
  | statusChangeEventFrame ch hst pt =>
    simp only [mergeNodeEvent]
    cases lookupEvent acc hst with
    | none =>
      intro p hp
      rcases List.mem_append.mp hp with hin | hin
      · exact h p hin
      · simp at hin; rw [hin]
    | some e0 =>
      intro p hp
      rcases List.mem_map.mp hp with ⟨q, hq, rfl⟩
      by_cases hqk : q.1 = hst
      · simpa [hqk] using h q hq
      · simpa [hqk] using h q hq
  | topologyChangeEventFrame ch hst pt => exact h
  | schemaChangeKeyspace ks ch => exact h
  | schemaChangeTable ks o => exact h
  | schemaChangeFunction ks o => exact h
  | schemaChangeAggregate ks o => exact h
  | schemaChangeType ks o => exact h

lemma mergeStatusEvents_host_key (frames : List Frame) :
    ∀ p ∈ mergeStatusEvents frames, p.2.host = p.1 := by
  rw [mergeStatusEvents]
  generalize hacc : ([] : List (String × nodeEvent)) = acc
  have hinv : ∀ p ∈ acc, p.2.host = p.1 := by rw [← hacc]; intro p hp; cases hp
  clear hacc
  induction frames generalizing acc with
  | nil => exact hinv
  | cons f fs ih => exact ih (mergeNodeEvent acc f) (mergeNodeEvent_host_key acc f hinv)

lemma filter_dispatchEvent (cfg : EventsConfig) (e : nodeEvent) (a : String) :
    (dispatchEvent cfg e).filter (isStatusActionFor a)
      = if e.host = a then dispatchEvent cfg e else [] := by
  by_cases h1 : e.change = "UP" <;> by_cases h2 : e.change = "DOWN" <;>
    by_cases h3 : cfg.DisableNodeStatusEvents <;> by_cases h4 : e.host = a <;>
      simp [dispatchEvent, isStatusActionFor, h1, h2, h3, h4]

lemma filter_flatMap_dispatch (cfg : EventsConfig) (a : String) :
    ∀ l : List (String × nodeEvent), (∀ p ∈ l, p.2.host = p.1) →
      ((l.flatMap fun p => dispatchEvent cfg p.2).filter (isStatusActionFor a))
        = (entriesFor a l).flatMap fun p => dispatchEvent cfg p.2 := by
  intro l
  induction l with
  | nil => intro _; rfl
  | cons p ps ih =>
    intro hkey
    have hp := hkey p (List.mem_cons_self p ps)
    have hps := fun q hq => hkey q (List.mem_cons_of_mem p hq)
    rw [List.flatMap_cons, List.filter_append, filter_dispatchEvent, ih hps]
    by_cases hpa : p.1 = a
    · rw [hp, if_pos hpa]
      have : entriesFor a (p :: ps) = p :: entriesFor a ps := by
        simp [entriesFor, List.filter_cons, hpa]
      rw [this, List.flatMap_cons]
    · rw [hp, if_neg hpa]
      have : entriesFor a (p :: ps) = entriesFor a ps := by
        simp [entriesFor, List.filter_cons, hpa]
      rw [this, List.nil_append]

lemma ringRefresh_not_mem_dispatchEvent (cfg : EventsConfig) (e : nodeEvent) :
    NodeAction.ringRefresh ∉ dispatchEvent cfg e := by
  unfold dispatchEvent
  split_ifs <;> simp

/-- The UP/DOWN dispatches of handleNodeEvent for one host address: none
when the batch carries no status frame for it, else exactly the dispatch of
the merged record (last change in batch order, first frame's port). -/
lemma statusActionsFor_handleNodeEvent (cfg : EventsConfig) (frames : List Frame)
    (a : String) :
    statusActionsFor a (handleNodeEvent cfg frames)
      = match statusFor a frames with
        | [] => []
        | c :: rest =>
          dispatchEvent cfg
            { change := (rest.map Prod.fst).getLastD c.1, host := a, port := c.2 } := by
  rw [statusActionsFor, handleNodeEvent, List.filter_append]
  have hpre : (if topologyEventReceived frames && !cfg.DisableTopologyEvents
      then [NodeAction.ringRefresh] else []).filter (isStatusActionFor a) = [] := by
    split_ifs <;> simp [isStatusActionFor]
  rw [hpre, List.nil_append,
    filter_flatMap_dispatch cfg a (mergeStatusEvents frames)
      (mergeStatusEvents_host_key frames),
    entriesFor_mergeStatusEvents]
  cases statusFor a frames with
  | nil => rfl
  | cons c rest => simp

lemma dispatchEvent_length_le_one (cfg : EventsConfig) (e : nodeEvent) :
    (dispatchEvent cfg e).length ≤ 1 := by
  unfold dispatchEvent
  split_ifs <;> simp

lemma mem_dispatchEvent (cfg : EventsConfig) (e : nodeEvent) (act : NodeAction)
    (h : act ∈ dispatchEvent cfg e) :
    actionChange act = e.change ∧ actionPort act = e.port := by
  unfold dispatchEvent at h
  split_ifs at h with h1 h2 h3 <;> simp at h
  · subst h; exact ⟨h1.symm, rfl⟩
  · subst h; exact ⟨h3.symm, rfl⟩

lemma dispatchEvent_eq_up (cfg : EventsConfig) (e : nodeEvent)
    (h : e.change = "UP") (hd : cfg.DisableNodeStatusEvents = false) :
    dispatchEvent cfg e = [NodeAction.nodeUp e.host e.port] := by
  rw [dispatchEvent, if_pos h, hd]
  simp

lemma dispatchEvent_eq_down (cfg : EventsConfig) (e : nodeEvent)
    (h : e.change = "DOWN") (hd : cfg.DisableNodeStatusEvents = false) :
    dispatchEvent cfg e = [NodeAction.nodeDown e.host e.port] := by
  have hne : ¬ e.change = "UP" := by rw [h]; decide
  rw [dispatchEvent, if_neg hne, if_pos h, hd]
  simp

/-- C1.  When a batch holds more than one status-change frame for one host
address, at most one status dispatch is made for that host, its change is
the last status change for the host in batch order, and (status events
enabled) a last change of UP dispatches exactly UP handling while a last
change of DOWN dispatches exactly DOWN handling. -/
theorem handleNodeEvent_last_write_wins (cfg : EventsConfig) (frames : List Frame)
    (a : String) (hmulti : 1 < (statusChangesFor a frames).length) :
    (statusActionsFor a (handleNodeEvent cfg frames)).length ≤ 1
    ∧ (∀ act ∈ statusActionsFor a (handleNodeEvent cfg frames),
        actionChange act = (statusChangesFor a frames).getLastD "")
    ∧ (cfg.DisableNodeStatusEvents = false →
        ((statusChangesFor a frames).getLastD "" = "UP" →
          ∃ p, statusActionsFor a (handleNodeEvent cfg frames) = [NodeAction.nodeUp a p])
        ∧ ((statusChangesFor a frames).getLastD "" = "DOWN" →
          ∃ p, statusActionsFor a (handleNodeEvent cfg frames) = [NodeAction.nodeDown a p])) := by
  cases hs : statusFor a frames with
  | nil =>
    exfalso
    rw [statusChangesFor, hs] at hmulti
    simp at hmulti
  | cons c rest =>
    have hchanges : statusChangesFor a frames = c.1 :: rest.map Prod.fst := by
      rw [statusChangesFor, hs, List.map_cons]
    have hlast : (statusChangesFor a frames).getLastD ""
        = (rest.map Prod.fst).getLastD c.1 := by
      rw [hchanges, List.getLastD_cons]
    have hchar : statusActionsFor a (handleNodeEvent cfg frames)
        = dispatchEvent cfg
            { change := (rest.map Prod.fst).getLastD c.1, host := a, port := c.2 } := by
      rw [statusActionsFor_handleNodeEvent, hs]
    refine ⟨?_, ?_, ?_⟩
    · rw [hchar]; exact dispatchEvent_length_le_one cfg _
    · intro act hact
      rw [hchar] at hact
      rw [hlast]
      exact (mem_dispatchEvent cfg _ act hact).1
    · intro hdis
      constructor
      · intro hup
        rw [hlast] at hup
        exact ⟨c.2, by rw [hchar]; exact dispatchEvent_eq_up cfg _ hup hdis⟩
      · intro hdown
        rw [hlast] at hdown
        exact ⟨c.2, by rw [hchar]; exact dispatchEvent_eq_down cfg _ hdown hdis⟩

/-- Witness for C1: a batch with DOWN then UP for the same host dispatches
exactly UP handling for it. -/
theorem handleNodeEvent_last_write_wins_witness :
    1 < (statusChangesFor "10.0.0.1"
        [Frame.statusChangeEventFrame "DOWN" "10.0.0.1" 9042,
         Frame.statusChangeEventFrame "UP" "10.0.0.1" 9042]).length
    ∧ ((statusActionsFor "10.0.0.1"
          (handleNodeEvent { DisableTopologyEvents := false, DisableNodeStatusEvents := false }
            [Frame.statusChangeEventFrame "DOWN" "10.0.0.1" 9042,
             Frame.statusChangeEventFrame "UP" "10.0.0.1" 9042])).length ≤ 1
       ∧ (∀ act ∈ statusActionsFor "10.0.0.1"
            (handleNodeEvent { DisableTopologyEvents := false, DisableNodeStatusEvents := false }
              [Frame.statusChangeEventFrame "DOWN" "10.0.0.1" 9042,
               Frame.statusChangeEventFrame "UP" "10.0.0.1" 9042]),
           actionChange act
             = (statusChangesFor "10.0.0.1"
                 [Frame.statusChangeEventFrame "DOWN" "10.0.0.1" 9042,
                  Frame.statusChangeEventFrame "UP" "10.0.0.1" 9042]).getLastD "")
       ∧ (({ DisableTopologyEvents := false,
             DisableNodeStatusEvents := false } : EventsConfig).DisableNodeStatusEvents = false →
          ((statusChangesFor "10.0.0.1"
              [Frame.statusChangeEventFrame "DOWN" "10.0.0.1" 9042,
               Frame.statusChangeEventFrame "UP" "10.0.0.1" 9042]).getLastD "" = "UP" →
            ∃ p, statusActionsFor "10.0.0.1"
              (handleNodeEvent { DisableTopologyEvents := false, DisableNodeStatusEvents := false }
                [Frame.statusChangeEventFrame "DOWN" "10.0.0.1" 9042,
                 Frame.statusChangeEventFrame "UP" "10.0.0.1" 9042])
              = [NodeAction.nodeUp "10.0.0.1" p])
          ∧ ((statusChangesFor "10.0.0.1"
               [Frame.statusChangeEventFrame "DOWN" "10.0.0.1" 9042,
                Frame.statusChangeEventFrame "UP" "10.0.0.1" 9042]).getLastD "" = "DOWN" →
            ∃ p, statusActionsFor "10.0.0.1"
              (handleNodeEvent { DisableTopologyEvents := false, DisableNodeStatusEvents := false }
                [Frame.statusChangeEventFrame "DOWN" "10.0.0.1" 9042,
                 Frame.statusChangeEventFrame "UP" "10.0.0.1" 9042])
              = [NodeAction.nodeDown "10.0.0.1" p]))) :=
  ⟨by decide,
   handleNodeEvent_last_write_wins
     { DisableTopologyEvents := false, DisableNodeStatusEvents := false }
     [Frame.statusChangeEventFrame "DOWN" "10.0.0.1" 9042,
      Frame.statusChangeEventFrame "UP" "10.0.0.1" 9042]
     "10.0.0.1" (by decide)⟩

lemma ringRefresh_not_mem_flatMap_dispatch (cfg : EventsConfig)
    (l : List (String × nodeEvent)) :
    NodeAction.ringRefresh ∉ l.flatMap fun p => dispatchEvent cfg p.2 := by
  intro h
  rcases List.mem_flatMap.mp h with ⟨p, _, hmem⟩
  exact ringRefresh_not_mem_dispatchEvent cfg p.2 hmem

/-- C2.  A batch holding at least one topology-change frame triggers, when
topology events are enabled, exactly one debounced ring refresh, and the
refresh is the very first call of the batch — before every per-host UP/DOWN
dispatch; a batch with no topology frame, or with topology events disabled,
triggers no such refresh. -/
theorem handleNodeEvent_topology_refresh_first (cfg : EventsConfig)
    (frames : List Frame) :
    (topologyEventReceived frames = true → cfg.DisableTopologyEvents = false →
       (handleNodeEvent cfg frames).count NodeAction.ringRefresh = 1
       ∧ (handleNodeEvent cfg frames).head? = some NodeAction.ringRefresh)
    ∧ (topologyEventReceived frames = false ∨ cfg.DisableTopologyEvents = true →
       NodeAction.ringRefresh ∉ handleNodeEvent cfg frames) := by
  constructor
  · intro ht hd
    have hcond : (topologyEventReceived frames && !cfg.DisableTopologyEvents) = true := by
      rw [ht, hd]; rfl
    have hform : handleNodeEvent cfg frames
        = NodeAction.ringRefresh
            :: (mergeStatusEvents frames).flatMap fun p => dispatchEvent cfg p.2 := by
      rw [handleNodeEvent, hcond]
      rfl
    constructor
    · rw [hform, List.count_cons]
      rw [List.count_eq_zero_of_not_mem (ringRefresh_not_mem_flatMap_dispatch cfg _)]
      simp
    · rw [hform]; rfl
  · intro hoff hmem
    have hcond : (topologyEventReceived frames && !cfg.DisableTopologyEvents) = false := by
      rcases hoff with h | h <;> rw [h] <;> simp
    rw [handleNodeEvent, hcond] at hmem
    simp only [if_neg, Bool.false_eq_true, List.nil_append] at hmem
    exact ringRefresh_not_mem_flatMap_dispatch cfg _ hmem

/-- Witness for C2: a concrete batch with one topology frame and one status
frame yields the refresh first, and the same batch with topology events
disabled yields none. -/
theorem handleNodeEvent_topology_refresh_first_witness :
    ((handleNodeEvent { DisableTopologyEvents := false, DisableNodeStatusEvents := false }
        [Frame.topologyChangeEventFrame "NEW_NODE" "10.0.0.5" 9042,
         Frame.statusChangeEventFrame "UP" "10.0.0.5" 9042]).count NodeAction.ringRefresh = 1
      ∧ (handleNodeEvent { DisableTopologyEvents := false, DisableNodeStatusEvents := false }
          [Frame.topologyChangeEventFrame "NEW_NODE" "10.0.0.5" 9042,
           Frame.statusChangeEventFrame "UP" "10.0.0.5" 9042]).head?
          = some NodeAction.ringRefresh)
    ∧ NodeAction.ringRefresh ∉
        handleNodeEvent { DisableTopologyEvents := true, DisableNodeStatusEvents := false }
          [Frame.topologyChangeEventFrame "NEW_NODE" "10.0.0.5" 9042,
           Frame.statusChangeEventFrame "UP" "10.0.0.5" 9042] :=
  ⟨(handleNodeEvent_topology_refresh_first
      { DisableTopologyEvents := false, DisableNodeStatusEvents := false }
      [Frame.topologyChangeEventFrame "NEW_NODE" "10.0.0.5" 9042,
       Frame.statusChangeEventFrame "UP" "10.0.0.5" 9042]).1 (by decide) rfl,
   (handleNodeEvent_topology_refresh_first
      { DisableTopologyEvents := true, DisableNodeStatusEvents := false }
      [Frame.topologyChangeEventFrame "NEW_NODE" "10.0.0.5" 9042,
       Frame.statusChangeEventFrame "UP" "10.0.0.5" 9042]).2 (Or.inr rfl)⟩

lemma lookupEvent_eq_head_entriesFor (l : List (String × nodeEvent)) (a : String) :
    lookupEvent l a = ((entriesFor a l).head?).map Prod.snd := by
  induction l with
  | nil => rfl
  | cons p ps ih =>
    by_cases h : p.1 = a
    · simp [lookupEvent, entriesFor, List.filter_cons, h]
    · simpa [lookupEvent, entriesFor, List.filter_cons, h] using ih

/-- C10.  The merged record for a host address keeps the host and port of
the first status-change frame seen for that address (later frames overwrite
only its change), so a later frame with a different port is dispatched with
the first frame's port. -/
theorem merged_event_keeps_first_host_port (cfg : EventsConfig)
    (frames : List Frame) (a : String) :
    (∀ e, lookupEvent (mergeStatusEvents frames) a = some e →
       e.host = a
       ∧ firstStatusPortFor a frames = some e.port
       ∧ e.change = (statusChangesFor a frames).getLastD e.change)
    ∧ (∀ act ∈ statusActionsFor a (handleNodeEvent cfg frames),
       firstStatusPortFor a frames = some (actionPort act))
    ∧ handleNodeEvent { DisableTopologyEvents := false, DisableNodeStatusEvents := false }
        [Frame.statusChangeEventFrame "UP" "10.0.0.1" 9042,
         Frame.statusChangeEventFrame "DOWN" "10.0.0.1" 19042]
        = [NodeAction.nodeDown "10.0.0.1" 9042] := by
  refine ⟨?_, ?_, by decide⟩
  · intro e he
    rw [lookupEvent_eq_head_entriesFor, entriesFor_mergeStatusEvents] at he
    cases hs : statusFor a frames with
    | nil => rw [hs] at he; exact Option.noConfusion he
    | cons c rest =>
      rw [hs] at he
      simp only [List.head?_cons, Option.map_some] at he
      have hev : e = { change := (rest.map Prod.fst).getLastD c.1, host := a, port := c.2 } := by
        cases he; rfl
      subst hev
      refine ⟨rfl, ?_, ?_⟩
      · rw [firstStatusPortFor, hs, List.map_cons, List.head?_cons]
      · rw [statusChangesFor, hs, List.map_cons, List.getLastD_cons]
  · intro act hact
    cases hs : statusFor a frames with
    | nil =>
      rw [statusActionsFor_handleNodeEvent, hs] at hact
      exact absurd hact (List.not_mem_nil act)
    | cons c rest =>
      rw [statusActionsFor_handleNodeEvent, hs] at hact
      have hport := (mem_dispatchEvent cfg _ act hact).2
      rw [firstStatusPortFor, hs, List.map_cons, List.head?_cons, hport]

/-- Witness for C10: after UP at port 9042 then DOWN at port 19042 for the
same address, the merged record holds the first port and DOWN is dispatched
with it. -/
theorem merged_event_keeps_first_host_port_witness :
    lookupEvent (mergeStatusEvents
        [Frame.statusChangeEventFrame "UP" "10.0.0.1" 9042,
         Frame.statusChangeEventFrame "DOWN" "10.0.0.1" 19042]) "10.0.0.1"
      = some { change := "DOWN", host := "10.0.0.1", port := 9042 }
    ∧ ({ change := "DOWN", host := "10.0.0.1", port := 9042 } : nodeEvent).host = "10.0.0.1"
    ∧ firstStatusPortFor "10.0.0.1"
        [Frame.statusChangeEventFrame "UP" "10.0.0.1" 9042,
         Frame.statusChangeEventFrame "DOWN" "10.0.0.1" 19042] = some 9042 :=
  ⟨by decide,
   ((merged_event_keeps_first_host_port
      { DisableTopologyEvents := false, DisableNodeStatusEvents := false }
      [Frame.statusChangeEventFrame "UP" "10.0.0.1" 9042,
       Frame.statusChangeEventFrame "DOWN" "10.0.0.1" 19042] "10.0.0.1").1
      { change := "DOWN", host := "10.0.0.1", port := 9042 } (by decide)).1,
   (((merged_event_keeps_first_host_port
      { DisableTopologyEvents := false, DisableNodeStatusEvents := false }
      [Frame.statusChangeEventFrame "UP" "10.0.0.1" 9042,
       Frame.statusChangeEventFrame "DOWN" "10.0.0.1" 19042] "10.0.0.1").1
      { change := "DOWN", host := "10.0.0.1", port := 9042 } (by decide)).2).1⟩

/-- The calls the Schema Reconciler makes, in order: cache invalidation,
the blocking schema-agreement wait, and the policy notification. -/
inductive SchemaAction where
  | clearSchema (keyspace : String)
  | awaitSchemaAgreement
  | keyspaceChanged (keyspace change : String)
deriving DecidableEq

/-- handleKeyspaceChange (events.go lines 130-133): await schema agreement,
then notify the policy with the keyspace-update event. -/
def handleKeyspaceChange (keyspace change : String) : List SchemaAction :=
  [SchemaAction.awaitSchemaAgreement, SchemaAction.keyspaceChanged keyspace change]

/-- handleSchemaEvent (events.go lines 111-128): for every frame clear the
cached schema of the frame's keyspace; for keyspace-level frames also run
handleKeyspaceChange afterwards.  Frames of no schema-change variant fall
through the switch and do nothing. -/
def handleSchemaEvent (frames : List Frame) : List SchemaAction :=
  frames.flatMap fun f =>
    match f with
    | Frame.schemaChangeKeyspace ks ch =>
      SchemaAction.clearSchema ks :: handleKeyspaceChange ks ch
    | Frame.schemaChangeTable ks _ => [SchemaAction.clearSchema ks]
    | Frame.schemaChangeAggregate ks _ => [SchemaAction.clearSchema ks]
    | Frame.schemaChangeFunction ks _ => [SchemaAction.clearSchema ks]
    | Frame.schemaChangeType ks _ => [SchemaAction.clearSchema ks]
    | _ => []

/-- The keyspace a schema-change frame carries, `none` for other frames. -/
def schemaFrameKeyspace : Frame → Option String
  | Frame.schemaChangeKeyspace ks _ => some ks
  | Frame.schemaChangeTable ks _ => some ks
  | Frame.schemaChangeFunction ks _ => some ks
  | Frame.schemaChangeAggregate ks _ => some ks
  | Frame.schemaChangeType ks _ => some ks
  | _ => none

/-- Whether a frame is one of the five schema-change variants. -/
def isSchemaChangeFrame (f : Frame) : Bool :=
  (schemaFrameKeyspace f).isSome

/-- Whether a frame is the keyspace-level schema-change variant. -/
def isKeyspaceLevel : Frame → Bool
  | Frame.schemaChangeKeyspace _ _ => true
  | _ => false

/-- Whether a schema call is a cache invalidation. -/
def isClearSchemaAction : SchemaAction → Bool
  | SchemaAction.clearSchema _ => true
  | _ => false

lemma handleSchemaEvent_count_clear (ks : String) (frames : List Frame) :
    (handleSchemaEvent frames).count (SchemaAction.clearSchema ks)
      = frames.countP fun f => schemaFrameKeyspace f == some ks := by
  induction frames with
  | nil => rfl
  | cons f fs ih =>
    rw [handleSchemaEvent, List.flatMap_cons, List.count_append, List.countP_cons]
    rw [handleSchemaEvent] at ih
    rw [ih]
    cases f with
    | schemaChangeKeyspace ks' ch' =>
      by_cases h : ks' = ks <;>
        simp [schemaFrameKeyspace, handleKeyspaceChange, List.count_cons, h, Nat.add_comm]
    | schemaChangeTable ks' o =>
      by_cases h : ks' = ks <;>
        simp [schemaFrameKeyspace, List.count_cons, h, Nat.add_comm]
    | schemaChangeFunction ks' o =>
      by_cases h : ks' = ks <;>
        simp [schemaFrameKeyspace, List.count_cons, h, Nat.add_comm]
    | schemaChangeAggregate ks' o =>
      by_cases h : ks' = ks <;>
        simp [schemaFrameKeyspace, List.count_cons, h, Nat.add_comm]
    | schemaChangeType ks' o =>
      by_cases h : ks' = ks <;>
        simp [schemaFrameKeyspace, List.count_cons, h, Nat.add_comm]
    | topologyChangeEventFrame c hst p => simp [schemaFrameKeyspace]
    | statusChangeEventFrame c hst p => simp [schemaFrameKeyspace]

lemma handleSchemaEvent_countP_clear (frames : List Frame) :
    (handleSchemaEvent frames).countP isClearSchemaAction
      = frames.countP isSchemaChangeFrame := by
  induction frames with
  | nil => rfl
  | cons f fs ih =>
    rw [handleSchemaEvent, List.flatMap_cons, List.countP_append, List.countP_cons]
    rw [handleSchemaEvent] at ih
    rw [ih]
    cases f <;>
      simp [schemaFrameKeyspace, isSchemaChangeFrame, isClearSchemaAction,
        handleKeyspaceChange, List.countP_cons, Nat.add_comm]

lemma handleSchemaEvent_count_await (frames : List Frame) :
    (handleSchemaEvent frames).count SchemaAction.awaitSchemaAgreement
      = frames.countP isKeyspaceLevel := by
  induction frames with
  | nil => rfl
  | cons f fs ih =>
    rw [handleSchemaEvent, List.flatMap_cons, List.count_append, List.countP_cons]
    rw [handleSchemaEvent] at ih
    rw [ih]
    cases f <;>
      simp [isKeyspaceLevel, handleKeyspaceChange, List.count_cons, Nat.add_comm]

lemma handleSchemaEvent_count_notify (ks ch : String) (frames : List Frame) :
    (handleSchemaEvent frames).count (SchemaAction.keyspaceChanged ks ch)
      = frames.count (Frame.schemaChangeKeyspace ks ch) := by
  induction frames with
  | nil => rfl
  | cons f fs ih =>
    rw [handleSchemaEvent, List.flatMap_cons, List.count_append, List.count_cons]
    rw [handleSchemaEvent] at ih
    rw [ih]
    cases f with
    | schemaChangeKeyspace ks' ch' =>
      by_cases h : ks' = ks ∧ ch' = ch
      · obtain ⟨rfl, rfl⟩ := h
        simp [handleKeyspaceChange, List.count_cons, Nat.add_comm]
      · have hne : ¬ (Frame.schemaChangeKeyspace ks' ch' = Frame.schemaChangeKeyspace ks ch) := by
          intro hc; injection hc with h1 h2; exact h ⟨h1, h2⟩
        have hne2 : ¬ (SchemaAction.keyspaceChanged ks' ch' = SchemaAction.keyspaceChanged ks ch) := by
          intro hc; injection hc with h1 h2; exact h ⟨h1, h2⟩
        simp [handleKeyspaceChange, List.count_cons, hne, hne2]
    | schemaChangeTable ks' o => simp [List.count_cons]
    | schemaChangeFunction ks' o => simp [List.count_cons]
    | schemaChangeAggregate ks' o => simp [List.count_cons]
    | schemaChangeType ks' o => simp [List.count_cons]
    | topologyChangeEventFrame c h p => simp [List.count_cons]
    | statusChangeEventFrame c h p => simp [List.count_cons]

/-- C5.  Every schema-change frame causes exactly one cache invalidation for
its own keyspace, with no deduplication across frames; keyspace-level frames
additionally await schema agreement once and notify the policy exactly once
with their keyspace and change, in that order after the invalidation; the
spec's scenario batch produces exactly that call sequence. -/
theorem handleSchemaEvent_per_frame (ks ch : String) (frames : List Frame) :
    (handleSchemaEvent frames).count (SchemaAction.clearSchema ks)
      = frames.countP (fun f => schemaFrameKeyspace f == some ks)
    ∧ (handleSchemaEvent frames).countP isClearSchemaAction
      = frames.countP isSchemaChangeFrame
    ∧ (handleSchemaEvent frames).count SchemaAction.awaitSchemaAgreement
      = frames.countP isKeyspaceLevel
    ∧ (handleSchemaEvent frames).count (SchemaAction.keyspaceChanged ks ch)
      = frames.count (Frame.schemaChangeKeyspace ks ch)
    ∧ handleSchemaEvent (Frame.schemaChangeKeyspace ks ch :: frames)
      = SchemaAction.clearSchema ks :: SchemaAction.awaitSchemaAgreement
          :: SchemaAction.keyspaceChanged ks ch :: handleSchemaEvent frames
    ∧ handleSchemaEvent
        [Frame.schemaChangeKeyspace "app" "DROPPED", Frame.schemaChangeTable "app" "users"]
      = [SchemaAction.clearSchema "app", SchemaAction.awaitSchemaAgreement,
         SchemaAction.keyspaceChanged "app" "DROPPED", SchemaAction.clearSchema "app"] :=
  ⟨handleSchemaEvent_count_clear ks frames,
   handleSchemaEvent_countP_clear frames,
   handleSchemaEvent_count_await frames,
   handleSchemaEvent_count_notify ks ch frames,
   rfl,
   rfl⟩

/-- The host states this core touches (`NodeUp`, `NodeDown`). -/
inductive NodeState where
  | NodeUp
  | NodeDown
deriving DecidableEq

/-- The fields of a ring host record that events.go reads or writes:
identifier, connect address, port, state, and the version-dependent node-up
settle delay (`host.Version().nodeUpDelay()`, in nanoseconds). -/
structure HostInfo where
  hostID : String
  connectAddress : String
  port : Nat
  state : NodeState
  nodeUpDelay : Nat
deriving DecidableEq

/-- Ring lookup by host IP string (`s.ring.getHostByIP`); the ring is
modelled as an association list keyed by the address. -/
def getHostByIP : List (String × HostInfo) → String → Option HostInfo
  | [], _ => none
  | p :: ps, ip => if p.1 = ip then some p.2 else getHostByIP ps ip

/-- `host.setState(st)` on the ring record stored under the given address. -/
def setHostState (ring : List (String × HostInfo)) (ip : String) (st : NodeState) :
    List (String × HostInfo) :=
  ring.map fun p => if p.1 = ip then (p.1, { p.2 with state := st }) else p

/-- The collaborator calls the node handlers make, in order. -/
inductive Collab where
  | debounceRingRefresh
  | sleep (d : Nat)
  | poolAddHost (host : HostInfo)
  | policyAddHost (host : HostInfo)
  | policyHostUp (host : HostInfo)
  | policyHostDown (host : HostInfo)
  | poolRemoveHost (hostID : String)
deriving DecidableEq

/-- The session state a node handler reads (ring, host filter) — the filter
is `s.cfg.filterHost`, true meaning the host is denied/ignored. -/
structure Session where
  ring : List (String × HostInfo)
  filterHost : HostInfo → Bool

/-- What one handler invocation did: the ring afterwards, the collaborator
calls, and the log entries, each in program order. -/
structure NodeHandlerResult where
  ring : List (String × HostInfo)
  calls : List Collab
  logs : List LogEntry

/-- startPoolFill (events.go lines 215-219): pool admission then policy
AddHost; the state change to UP is left to handleNodeConnected. -/
def startPoolFill (host : HostInfo) : List Collab :=
  [Collab.poolAddHost host, Collab.policyAddHost host]

/-- handleNodeUp (events.go lines 195-213): log, look the host up by IP; on
a miss trigger a debounced ring refresh and stop; on a filtered host stop;
otherwise sleep the version's settle delay (when non-zero) and start the
pool fill.  The host state is never written here. -/
def handleNodeUp (s : Session) (eventIp : String) (eventPort : Nat) :
    NodeHandlerResult :=
  let logs := [{ level := LogLevel.info, msg := "node is UP: %s:%d",
                 fields := [("event_ip", LogValue.str eventIp),
                            ("event_port", LogValue.nat eventPort)] }]
  match getHostByIP s.ring eventIp with
  | none => { ring := s.ring, calls := [Collab.debounceRingRefresh], logs := logs }
  | some host =>
    if s.filterHost host then { ring := s.ring, calls := [], logs := logs }
    else
      { ring := s.ring
        calls := (if host.nodeUpDelay > 0 then [Collab.sleep host.nodeUpDelay] else [])
          ++ startPoolFill host
        logs := logs }

/-- handleNodeConnected (events.go lines 221-230): log, set the host state
to UP, and notify the policy HostUp unless the (now-UP) host is filtered. -/
def handleNodeConnected (s : Session) (host : HostInfo) : NodeHandlerResult :=
  let logs := [{ level := LogLevel.debug, msg := "connected to node: %s:%d (%s)",
                 fields := [("host_addr", LogValue.str host.connectAddress),
                            ("port", LogValue.nat host.port),
                            ("host_id", LogValue.str host.hostID)] }]
  let hostUp := { host with state := NodeState.NodeUp }
  { ring := setHostState s.ring host.connectAddress NodeState.NodeUp
    calls := if s.filterHost hostUp then [] else [Collab.policyHostUp hostUp]
    logs := logs }

/-- handleNodeDown (events.go lines 232-247): log, look the host up by IP
and stop on a miss; otherwise set its state to DOWN, and unless the
(now-DOWN) host is filtered notify the policy HostDown and ask the pool to
remove it by host identifier. -/
def handleNodeDown (s : Session) (ip : String) (port : Nat) : NodeHandlerResult :=
  let logs := [{ level := LogLevel.warning, msg := "node is DOWN: %s:%d",
                 fields := [("host_addr", LogValue.str ip),
                            ("port", LogValue.nat port)] }]
  match getHostByIP s.ring ip with
  | none => { ring := s.ring, calls := [], logs := logs }
  | some host =>
    let hostDown := { host with state := NodeState.NodeDown }
    if s.filterHost hostDown then
      { ring := setHostState s.ring ip NodeState.NodeDown, calls := [], logs := logs }
    else
      { ring := setHostState s.ring ip NodeState.NodeDown
        calls := [Collab.policyHostDown hostDown, Collab.poolRemoveHost hostDown.hostID]
        logs := logs }

/-- Counterexample for C7 as stated: a DOWN event for a host that is not in
the ring triggers no ring refresh at all — handleNodeDown simply does
nothing (handleNodeUp is the only handler that refreshes on a miss). -/
theorem handleNodeDown_unknown_host_no_refresh_cex :
    getHostByIP ([] : List (String × HostInfo)) "10.0.0.9" = none
    ∧ Collab.debounceRingRefresh ∉
        (handleNodeDown { ring := [], filterHost := fun _ => false } "10.0.0.9" 9042).calls
    ∧ (handleNodeDown { ring := [], filterHost := fun _ => false } "10.0.0.9" 9042).calls
        = [] := by
  refine ⟨rfl, ?_, rfl⟩
  intro h
  simp [handleNodeDown, getHostByIP] at h

/-- C7 (amended).  A status event for a host address missing from the ring
never fails and never logs at error level, and mutates no state: an UP event
falls back to triggering one debounced ring refresh, while a DOWN event is a
no-op making no collaborator call. -/
theorem unknown_host_status_event_no_failure (s : Session) (ip : String)
    (port : Nat) (h : getHostByIP s.ring ip = none) :
    (handleNodeUp s ip port).ring = s.ring
    ∧ (handleNodeUp s ip port).calls = [Collab.debounceRingRefresh]
    ∧ (∀ l ∈ (handleNodeUp s ip port).logs, l.level ≠ LogLevel.error)
    ∧ (handleNodeDown s ip port).ring = s.ring
    ∧ (handleNodeDown s ip port).calls = []
    ∧ (∀ l ∈ (handleNodeDown s ip port).logs, l.level ≠ LogLevel.error) := by
  refine ⟨?_, ?_, ?_, ?_, ?_, ?_⟩ <;> simp [handleNodeUp, handleNodeDown, h]

/-- Witness for C7 (amended) on the empty ring. -/
theorem unknown_host_status_event_no_failure_witness :
    getHostByIP ([] : List (String × HostInfo)) "10.0.0.9" = none
    ∧ ((handleNodeUp { ring := [], filterHost := fun _ => false } "10.0.0.9" 9042).ring = []
       ∧ (handleNodeUp { ring := [], filterHost := fun _ => false } "10.0.0.9" 9042).calls
           = [Collab.debounceRingRefresh]
       ∧ (∀ l ∈ (handleNodeUp { ring := [], filterHost := fun _ => false } "10.0.0.9" 9042).logs,
           l.level ≠ LogLevel.error)
       ∧ (handleNodeDown { ring := [], filterHost := fun _ => false } "10.0.0.9" 9042).ring = []
       ∧ (handleNodeDown { ring := [], filterHost := fun _ => false } "10.0.0.9" 9042).calls = []
       ∧ (∀ l ∈ (handleNodeDown { ring := [], filterHost := fun _ => false } "10.0.0.9" 9042).logs,
           l.level ≠ LogLevel.error)) :=
  ⟨rfl,
   unknown_host_status_event_no_failure
     { ring := [], filterHost := fun _ => false } "10.0.0.9" 9042 rfl⟩

/-- C8.  When the DOWN event's address is in the ring, handleNodeDown sets
that host's state to DOWN unconditionally — also for hosts the filter
denies; the policy HostDown call and the pool removeHost-by-identifier call
are made exactly when the host passes the filter, and no other collaborator
call is made; a miss mutates nothing and calls nobody. -/
theorem handleNodeDown_effects (s : Session) (ip : String) (port : Nat) :
    (∀ h, getHostByIP s.ring ip = some h →
       (handleNodeDown s ip port).ring = setHostState s.ring ip NodeState.NodeDown
       ∧ (s.filterHost { h with state := NodeState.NodeDown } = true →
           (handleNodeDown s ip port).calls = [])
       ∧ (s.filterHost { h with state := NodeState.NodeDown } = false →
           (handleNodeDown s ip port).calls
             = [Collab.policyHostDown { h with state := NodeState.NodeDown },
                Collab.poolRemoveHost h.hostID]))
    ∧ (getHostByIP s.ring ip = none →
       (handleNodeDown s ip port).ring = s.ring
       ∧ (handleNodeDown s ip port).calls = []) := by
  constructor
  · intro h hh
    refine ⟨?_, ?_, ?_⟩
    · by_cases hf : s.filterHost { h with state := NodeState.NodeDown } <;>
        simp [handleNodeDown, hh, hf]
    · intro hf; simp [handleNodeDown, hh, hf]
    · intro hf; simp [handleNodeDown, hh, hf]
  · intro hh
    exact ⟨by simp [handleNodeDown, hh], by simp [handleNodeDown, hh]⟩

/-- Witness for C8 on a one-host ring, with a filter that passes every host
and one that denies every host. -/
theorem handleNodeDown_effects_witness :
    getHostByIP
        [("10.0.0.1", { hostID := "h1", connectAddress := "10.0.0.1", port := 9042,
                        state := NodeState.NodeUp, nodeUpDelay := 0 })]
        "10.0.0.1"
      = some { hostID := "h1", connectAddress := "10.0.0.1", port := 9042,
               state := NodeState.NodeUp, nodeUpDelay := 0 }
    ∧ (handleNodeDown
        { ring := [("10.0.0.1", { hostID := "h1", connectAddress := "10.0.0.1", port := 9042,
                                  state := NodeState.NodeUp, nodeUpDelay := 0 })],
          filterHost := fun _ => false } "10.0.0.1" 9042).calls
      = [Collab.policyHostDown { hostID := "h1", connectAddress := "10.0.0.1", port := 9042,
                                 state := NodeState.NodeDown, nodeUpDelay := 0 },
         Collab.poolRemoveHost "h1"]
    ∧ (handleNodeDown
        { ring := [("10.0.0.1", { hostID := "h1", connectAddress := "10.0.0.1", port := 9042,
                                  state := NodeState.NodeUp, nodeUpDelay := 0 })],
          filterHost := fun _ => true } "10.0.0.1" 9042).calls = []
    ∧ (handleNodeDown
        { ring := [("10.0.0.1", { hostID := "h1", connectAddress := "10.0.0.1", port := 9042,
                                  state := NodeState.NodeUp, nodeUpDelay := 0 })],
          filterHost := fun _ => true } "10.0.0.1" 9042).ring
      = [("10.0.0.1", { hostID := "h1", connectAddress := "10.0.0.1", port := 9042,
                        state := NodeState.NodeDown, nodeUpDelay := 0 })] :=
  ⟨rfl,
   (((handleNodeDown_effects
      { ring := [("10.0.0.1", { hostID := "h1", connectAddress := "10.0.0.1", port := 9042,
                                state := NodeState.NodeUp, nodeUpDelay := 0 })],
        filterHost := fun _ => false } "10.0.0.1" 9042).1
      { hostID := "h1", connectAddress := "10.0.0.1", port := 9042,
        state := NodeState.NodeUp, nodeUpDelay := 0 } rfl).2.2 rfl),
   (((handleNodeDown_effects
      { ring := [("10.0.0.1", { hostID := "h1", connectAddress := "10.0.0.1", port := 9042,
                                state := NodeState.NodeUp, nodeUpDelay := 0 })],
        filterHost := fun _ => true } "10.0.0.1" 9042).1
      { hostID := "h1", connectAddress := "10.0.0.1", port := 9042,
        state := NodeState.NodeUp, nodeUpDelay := 0 } rfl).2.1 rfl),
   (((handleNodeDown_effects
      { ring := [("10.0.0.1", { hostID := "h1", connectAddress := "10.0.0.1", port := 9042,
                                state := NodeState.NodeUp, nodeUpDelay := 0 })],
        filterHost := fun _ => true } "10.0.0.1" 9042).1
      { hostID := "h1", connectAddress := "10.0.0.1", port := 9042,
        state := NodeState.NodeUp, nodeUpDelay := 0 } rfl).1)⟩

/-- C9.  handleNodeUp never writes a host state (the ring is untouched and
no HostUp notification is made); for an unfiltered known host it only
sleeps the settle delay (when non-zero) and requests pool admission and
policy AddHost; the UP state transition lives in handleNodeConnected, which
sets the state to UP and notifies the policy HostUp exactly when the host
passes the filter. -/
theorem handleNodeUp_defers_state_transition (s : Session) (ip : String)
    (port : Nat) (host : HostInfo) :
    (handleNodeUp s ip port).ring = s.ring
    ∧ (∀ h2, Collab.policyHostUp h2 ∉ (handleNodeUp s ip port).calls)
    ∧ (∀ h, getHostByIP s.ring ip = some h → s.filterHost h = false →
        (handleNodeUp s ip port).calls
          = (if h.nodeUpDelay > 0 then [Collab.sleep h.nodeUpDelay] else [])
              ++ [Collab.poolAddHost h, Collab.policyAddHost h])
    ∧ (handleNodeConnected s host).ring
        = setHostState s.ring host.connectAddress NodeState.NodeUp
    ∧ (s.filterHost { host with state := NodeState.NodeUp } = false →
        (handleNodeConnected s host).calls
          = [Collab.policyHostUp { host with state := NodeState.NodeUp }])
    ∧ (s.filterHost { host with state := NodeState.NodeUp } = true →
        (handleNodeConnected s host).calls = []) := by
  refine ⟨?_, ?_, ?_, rfl, ?_, ?_⟩
  · cases hg : getHostByIP s.ring ip with
    | none => simp [handleNodeUp, hg]
    | some h =>
      by_cases hf : s.filterHost h <;> simp [handleNodeUp, hg, hf]
  · intro h2
    cases hg : getHostByIP s.ring ip with
    | none => simp [handleNodeUp, hg]
    | some h =>
      by_cases hf : s.filterHost h
      · simp [handleNodeUp, hg, hf]
      · by_cases hd : h.nodeUpDelay > 0 <;>
          simp [handleNodeUp, hg, hf, hd, startPoolFill]
  · intro h hg hf
    simp [handleNodeUp, hg, hf, startPoolFill]
  · intro hf; simp [handleNodeConnected, hf]
  · intro hf; simp [handleNodeConnected, hf]

/-- Witness for C9 on a one-host ring with settle delay zero and a filter
that passes every host. -/
theorem handleNodeUp_defers_state_transition_witness :
    (handleNodeUp
        { ring := [("10.0.0.1", { hostID := "h1", connectAddress := "10.0.0.1", port := 9042,
                                  state := NodeState.NodeDown, nodeUpDelay := 0 })],
          filterHost := fun _ => false } "10.0.0.1" 9042).ring
      = [("10.0.0.1", { hostID := "h1", connectAddress := "10.0.0.1", port := 9042,
                        state := NodeState.NodeDown, nodeUpDelay := 0 })]
    ∧ (handleNodeUp
        { ring := [("10.0.0.1", { hostID := "h1", connectAddress := "10.0.0.1", port := 9042,
                                  state := NodeState.NodeDown, nodeUpDelay := 0 })],
          filterHost := fun _ => false } "10.0.0.1" 9042).calls
      = [Collab.poolAddHost { hostID := "h1", connectAddress := "10.0.0.1", port := 9042,
                              state := NodeState.NodeDown, nodeUpDelay := 0 },
         Collab.policyAddHost { hostID := "h1", connectAddress := "10.0.0.1", port := 9042,
                                state := NodeState.NodeDown, nodeUpDelay := 0 }]
    ∧ (handleNodeConnected
        { ring := [("10.0.0.1", { hostID := "h1", connectAddress := "10.0.0.1", port := 9042,
                                  state := NodeState.NodeDown, nodeUpDelay := 0 })],
          filterHost := fun _ => false }
        { hostID := "h1", connectAddress := "10.0.0.1", port := 9042,
          state := NodeState.NodeDown, nodeUpDelay := 0 }).calls
      = [Collab.policyHostUp { hostID := "h1", connectAddress := "10.0.0.1", port := 9042,
                               state := NodeState.NodeUp, nodeUpDelay := 0 }] := by
  have h := handleNodeUp_defers_state_transition
    { ring := [("10.0.0.1", { hostID := "h1", connectAddress := "10.0.0.1", port := 9042,
                              state := NodeState.NodeDown, nodeUpDelay := 0 })],
      filterHost := fun _ => false } "10.0.0.1" 9042
    { hostID := "h1", connectAddress := "10.0.0.1", port := 9042,
      state := NodeState.NodeDown, nodeUpDelay := 0 }
  have hcalls := h.2.2.1
    ({ hostID := "h1", connectAddress := "10.0.0.1", port := 9042,
       state := NodeState.NodeDown, nodeUpDelay := 0 }) rfl rfl
  exact ⟨h.1, by simpa using hcalls, h.2.2.2.2.1 rfl⟩

/-- The timed state of one debouncer together with its flusher goroutine
(events.go lines 43-54): the buffer, the timer's pending deadline (none
when the timer is stopped or has fired), and the flush callbacks made so
far, each recorded with its firing time and its batch. -/
structure FlusherState where
  deb : eventDebouncer
  deadline : Option Nat
  flushes : List (Nat × List Frame)
  logs : List LogEntry

/-- The timer firing at time `d`: the flusher loop takes the lock and runs
flush; a non-empty buffer is handed to the callback (recorded in
`flushes`), and the timer stays unarmed until the next debounce call. -/
def fireTimer (s : FlusherState) (d : Nat) : FlusherState :=
  let r := flush s.deb
  { deb := r.1
    deadline := none
    flushes := s.flushes ++ (match r.2 with | some b => [(d, b)] | none => [])
    logs := s.logs }

/-- A debounce call at absolute time `t` (nanoseconds): any timer deadline
already in the past fires first, then the call resets the timer to
`t + eventDebounceTime` — unconditionally, before the capacity check — and
buffers or drops the frame. -/
def debounceAt (s : FlusherState) (t : Nat) (f : Frame) : FlusherState :=
  let s1 := match s.deadline with
    | some d => if d ≤ t then fireTimer s d else s
    | none => s
  let r := debounce s1.deb f
  { deb := r.1
    deadline := some (t + eventDebounceTime)
    flushes := s1.flushes
    logs := s1.logs ++ r.2 }

/-- A freshly created debouncer: empty buffer, stopped timer
(newEventDebouncer stops the timer right after creating it). -/
def initFlusherState (name : String) : FlusherState :=
  { deb := { name := name, events := [] }, deadline := none, flushes := [], logs := [] }

/-- Run a time-stamped sequence of debounce calls from a fresh debouncer. -/
def runCalls (name : String) (calls : List (Nat × Frame)) : FlusherState :=
  calls.foldl (fun s c => debounceAt s c.1 c.2) (initFlusherState name)

/-- Run the calls, then let the system go idle so any armed timer fires. -/
def runCallsAndIdle (name : String) (calls : List (Nat × Frame)) : FlusherState :=
  let s := runCalls name calls
  match s.deadline with
  | some d => fireTimer s d
  | none => s

/-- Strictly increasing call times, each arriving within one debounce
interval of the time `t` of the previous call. -/
def chainFrom (t : Nat) : List (Nat × Frame) → Bool
  | [] => true
  | c :: cs => decide (t < c.1) && decide (c.1 < t + eventDebounceTime) && chainFrom c.1 cs

/-- Calls spaced less than the debounce interval apart (and strictly
increasing in time). -/
def closelySpaced : List (Nat × Frame) → Bool
  | [] => true
  | c :: cs => chainFrom c.1 cs

lemma foldl_debounceAt_chain (cs : List (Nat × Frame)) :
    ∀ (s : FlusherState) (t : Nat), s.deadline = some (t + eventDebounceTime) →
      chainFrom t cs = true →
      cs.foldl (fun s c => debounceAt s c.1 c.2) s
        = { deb := (debounceRun s.deb (cs.map Prod.snd)).1
            deadline := some ((cs.map Prod.fst).getLastD t + eventDebounceTime)
            flushes := s.flushes
            logs := s.logs ++ (debounceRun s.deb (cs.map Prod.snd)).2 } := by
  induction cs with
  | nil =>
    intro s t hd _
    simp only [List.foldl_nil, List.map_nil, debounceRun, List.getLastD_nil,
      List.append_nil]
    rw [← hd]
  | cons c cs ih =>
    intro s t hd hchain
    simp only [chainFrom, Bool.and_eq_true, decide_eq_true_eq] at hchain
    obtain ⟨⟨h1, h2⟩, h3⟩ := hchain
    have hnofire : ¬ (t + eventDebounceTime ≤ c.1) := by omega
    have hstep : debounceAt s c.1 c.2
        = { deb := (debounce s.deb c.2).1
            deadline := some (c.1 + eventDebounceTime)
            flushes := s.flushes
            logs := s.logs ++ (debounce s.deb c.2).2 } := by
      rw [debounceAt, hd]
      simp [hnofire]
    rw [List.foldl_cons, hstep, ih _ c.1 rfl h3]
    simp only [debounceRun, List.map_cons, List.getLastD_cons, List.append_assoc]

/-- C6.  For every non-empty sequence of debounce calls spaced less than
the debounce interval apart, exactly one flush occurs; it fires one
interval after the last call (every call resets the timer, also a call
whose frame was dropped at capacity), and its batch is exactly the buffered
frames in arrival order (all frames, capped at the buffer size). -/
theorem debouncer_single_flush_after_quiescence (name : String)
    (calls : List (Nat × Frame)) (hne : calls ≠ [])
    (hsp : closelySpaced calls = true) :
    (runCallsAndIdle name calls).flushes
      = [((calls.map Prod.fst).getLastD 0 + eventDebounceTime,
          (calls.map Prod.snd).take eventBufferSize)] := by
  cases calls with
  | nil => exact absurd rfl hne
  | cons c cs =>
    have hchain : chainFrom c.1 cs = true := hsp
    have hfirst : debounceAt (initFlusherState name) c.1 c.2
        = { deb := { name := name, events := [c.2] }
            deadline := some (c.1 + eventDebounceTime)
            flushes := []
            logs := [] } := by
      rw [debounceAt]
      simp [initFlusherState, debounce, eventBufferSize]
    have hrun : runCalls name (c :: cs)
        = { deb := (debounceRun { name := name, events := [c.2] } (cs.map Prod.snd)).1
            deadline := some ((cs.map Prod.fst).getLastD c.1 + eventDebounceTime)
            flushes := []
            logs := [] ++ (debounceRun { name := name, events := [c.2] } (cs.map Prod.snd)).2 } := by
      rw [runCalls, List.foldl_cons, hfirst]
      exact foldl_debounceAt_chain cs _ c.1 rfl hchain
    have hev : (debounceRun { name := name, events := [c.2] } (cs.map Prod.snd)).1.events
        = c.2 :: (cs.map Prod.snd).take (eventBufferSize - 1) := by
      rw [debounceRun_events]
      rfl
    have hevne : (debounceRun { name := name, events := [c.2] } (cs.map Prod.snd)).1.events ≠ [] := by
      rw [hev]; exact List.cons_ne_nil _ _
    have hfl : flush (debounceRun { name := name, events := [c.2] } (cs.map Prod.snd)).1
        = ({ (debounceRun { name := name, events := [c.2] } (cs.map Prod.snd)).1 with
              events := [] },
           some (debounceRun { name := name, events := [c.2] } (cs.map Prod.snd)).1.events) := by
      rw [flush, if_neg hevne]
    have hlast : ((c :: cs).map Prod.fst).getLastD 0 = (cs.map Prod.fst).getLastD c.1 := by
      rw [List.map_cons, List.getLastD_cons]
    have htake : ((c :: cs).map Prod.snd).take eventBufferSize
        = c.2 :: (cs.map Prod.snd).take (eventBufferSize - 1) := by
      rw [List.map_cons]
      rfl
    rw [runCallsAndIdle, hrun]
    simp only [fireTimer]
    rw [hfl, hlast, htake, hev]
    simp

/-- Witness for C6: two calls half a second apart produce one flush, one
second after the second call, holding both frames in order. -/
theorem debouncer_single_flush_after_quiescence_witness :
    ([((0 : Nat), Frame.statusChangeEventFrame "UP" "10.0.0.1" 9042),
      ((500000000 : Nat), Frame.statusChangeEventFrame "DOWN" "10.0.0.1" 9042)]
        : List (Nat × Frame)) ≠ []
    ∧ closelySpaced
        [((0 : Nat), Frame.statusChangeEventFrame "UP" "10.0.0.1" 9042),
         ((500000000 : Nat), Frame.statusChangeEventFrame "DOWN" "10.0.0.1" 9042)] = true
    ∧ (runCallsAndIdle "node events"
        [((0 : Nat), Frame.statusChangeEventFrame "UP" "10.0.0.1" 9042),
         ((500000000 : Nat), Frame.statusChangeEventFrame "DOWN" "10.0.0.1" 9042)]).flushes
      = [(1500000000,
          [Frame.statusChangeEventFrame "UP" "10.0.0.1" 9042,
           Frame.statusChangeEventFrame "DOWN" "10.0.0.1" 9042])] := by
  refine ⟨by simp, by decide, ?_⟩
  rw [debouncer_single_flush_after_quiescence "node events" _ (by simp) (by decide)]
  decide

end Gocql
